import Mathlib

/-
Verification development for the DrandShuffle repository.

The Go sources are shallowly embedded into Lean:
- bytes are modelled as natural numbers (every Go byte is < 256; the
  embedding is byte-faithful on such inputs),
- Go strings are modelled as their UTF-8 byte sequences (Go len, slicing
  and strings.HasPrefix all operate on bytes),
- the Go map round -> beacon record of DrandManager is modelled as an
  association list kept sorted by strictly increasing round (a canonical
  representation of a finite map; the eviction code in the source sorts
  the keys before deleting, so dropping from the front of the sorted
  representation mirrors deleting the smallest sorted keys),
- crypto/sha256 is embedded as a full executable SHA-256 over byte lists
  (checked against the standard test vectors),
- the network client is abstracted: every operation that performs a fetch
  takes the fetched result as an explicit argument.
-/

/-! ## SHA-256 (crypto/sha256), executable over byte lists -/

/-- Truncation to a 32-bit word. -/
def w32 (x : Nat) : Nat := x % 4294967296

/-- Rotate a 32-bit word right by n bits. -/
def rotr32 (n x : Nat) : Nat := w32 ((x >>> n) ||| (x <<< (32 - n)))

/-- Big Sigma0 of FIPS 180-4. -/
def bsig0 (x : Nat) : Nat := rotr32 2 x ^^^ rotr32 13 x ^^^ rotr32 22 x

/-- Big Sigma1 of FIPS 180-4. -/
def bsig1 (x : Nat) : Nat := rotr32 6 x ^^^ rotr32 11 x ^^^ rotr32 25 x

/-- Small sigma0 of FIPS 180-4. -/
def ssig0 (x : Nat) : Nat := rotr32 7 x ^^^ rotr32 18 x ^^^ (x >>> 3)

/-- Small sigma1 of FIPS 180-4. -/
def ssig1 (x : Nat) : Nat := rotr32 17 x ^^^ rotr32 19 x ^^^ (x >>> 10)

/-- Choice function of the SHA-256 compression loop. -/
def chFn (x y z : Nat) : Nat := (x &&& y) ^^^ ((x ^^^ 4294967295) &&& z)

/-- Majority function of the SHA-256 compression loop. -/
def majFn (x y z : Nat) : Nat := (x &&& y) ^^^ (x &&& z) ^^^ (y &&& z)

/-- Eight 32-bit words: either the running hash value or the a..h working
variables of the compression loop. -/
structure Hash8 where
  h0 : Nat
  h1 : Nat
  h2 : Nat
  h3 : Nat
  h4 : Nat
  h5 : Nat
  h6 : Nat
  h7 : Nat

/-- Starting hash words of SHA-256, written in decimal. -/
def sha256InitState : Hash8 :=
  ⟨1779033703, 3144134277, 1013904242, 2773480762,
   1359893119, 2600822924, 528734635, 1541459225⟩

/-- Round-constant table of the SHA-256 compression loop, in decimal. -/
def sha256K : List Nat :=
  [1116352408, 1899447441, 3049323471, 3921009573, 961987163,
   1508970993, 2453635748, 2870763221, 3624381080, 310598401,
   607225278, 1426881987, 1925078388, 2162078206, 2614888103,
   3248222580, 3835390401, 4022224774, 264347078, 604807628,
   770255983, 1249150122, 1555081692, 1996064986, 2554220882,
   2821834349, 2952996808, 3210313671, 3336571891, 3584528711,
   113926993, 338241895, 666307205, 773529912, 1294757372,
   1396182291, 1695183700, 1986661051, 2177026350, 2456956037,
   2730485921, 2820302411, 3259730800, 3345764771, 3516065817,
   3600352804, 4094571909, 275423344, 430227734, 506948616,
   659060556, 883997877, 958139571, 1322822218, 1537002063,
   1747873779, 1955562222, 2024104815, 2227730452, 2361852424,
   2428436474, 2756734187, 3204031479, 3329325298]

/-- One round of the SHA-256 compression loop; kw is the pair of the round
constant and the schedule word. -/
def sha256Round (st : Hash8) (kw : Nat × Nat) : Hash8 :=
  let t1 := w32 (st.h7 + bsig1 st.h4 + chFn st.h4 st.h5 st.h6 + kw.1 + kw.2)
  let t2 := w32 (bsig0 st.h0 + majFn st.h0 st.h1 st.h2)
  ⟨w32 (t1 + t2), st.h0, st.h1, st.h2, w32 (st.h3 + t1), st.h4, st.h5, st.h6⟩

/-- Parse n big-endian 32-bit words from a byte list. -/
def toWordsGo : Nat → List Nat → List Nat
  | 0, _ => []
  | n + 1, bs =>
      (bs.getD 0 0 * 16777216 + bs.getD 1 0 * 65536 + bs.getD 2 0 * 256 + bs.getD 3 0) ::
        toWordsGo n (bs.drop 4)

/-- Extend the 16 message words by n schedule words. -/
def scheduleGo : List Nat → Nat → List Nat
  | ws, 0 => ws
  | ws, n + 1 =>
      let L := ws.length
      let w := w32 (ssig1 (ws.getD (L - 2) 0) + ws.getD (L - 7) 0 +
                    ssig0 (ws.getD (L - 15) 0) + ws.getD (L - 16) 0)
      scheduleGo (ws ++ [w]) n

/-- Process one 64-byte block. -/
def processBlock (st : Hash8) (block : List Nat) : Hash8 :=
  let ws := scheduleGo (toWordsGo 16 block) 48
  let r := (sha256K.zip ws).foldl sha256Round st
  ⟨w32 (st.h0 + r.h0), w32 (st.h1 + r.h1), w32 (st.h2 + r.h2), w32 (st.h3 + r.h3),
   w32 (st.h4 + r.h4), w32 (st.h5 + r.h5), w32 (st.h6 + r.h6), w32 (st.h7 + r.h7)⟩

/-- Big-endian bytes of a 64-bit length field. -/
def w64Bytes (n : Nat) : List Nat :=
  [n >>> 56 &&& 255, n >>> 48 &&& 255, n >>> 40 &&& 255, n >>> 32 &&& 255,
   n >>> 24 &&& 255, n >>> 16 &&& 255, n >>> 8 &&& 255, n &&& 255]

/-- SHA-256 padding: a 0x80 byte, zeros to 56 mod 64, then the bit length. -/
def padMessage (msg : List Nat) : List Nat :=
  msg ++ 128 :: List.replicate ((119 - msg.length % 64) % 64) 0 ++ w64Bytes (msg.length * 8)

/-- Split a byte list into n blocks of 64 bytes. -/
def toBlocksGo : Nat → List Nat → List (List Nat)
  | 0, _ => []
  | n + 1, bs => bs.take 64 :: toBlocksGo n (bs.drop 64)

/-- Big-endian bytes of one 32-bit word. -/
def wordBytes (w : Nat) : List Nat :=
  [w >>> 24 &&& 255, w >>> 16 &&& 255, w >>> 8 &&& 255, w &&& 255]

/-- SHA-256 digest of a byte list, as 32 bytes.  Matches crypto/sha256 on
byte-valued inputs (checked against the FIPS test vectors). -/
def sha256 (msg : List Nat) : List Nat :=
  let padded := padMessage msg
  let fin := (toBlocksGo (padded.length / 64) padded).foldl processBlock sha256InitState
  wordBytes fin.h0 ++ wordBytes fin.h1 ++ wordBytes fin.h2 ++ wordBytes fin.h3 ++
    wordBytes fin.h4 ++ wordBytes fin.h5 ++ wordBytes fin.h6 ++ wordBytes fin.h7

/-! ## Card model (shuffle.go).  Go strings appear as UTF-8 byte lists. -/

/-- Card of shuffle.go: a suit string and a value string, both as the
UTF-8 bytes of the Go string. -/
structure Card where
  Suit : List Nat
  Value : List Nat
deriving DecidableEq, Repr

/-- Default Card value, used only to give list indexing a fallback. -/
def defaultCard : Card := ⟨[], []⟩

instance : Inhabited Card := ⟨defaultCard⟩

/-- UTF-8 bytes of the four suit strings of shuffle.go, in source order:
black spade, red heart, diamond, club. -/
def suitsBytes : List (List Nat) :=
  [[233, 187, 145, 230, 161, 131],
   [231, 180, 133, 229, 191, 131],
   [230, 150, 185, 229, 161, 138],
   [230, 162, 133, 232, 138, 177]]

/-- UTF-8 bytes of the thirteen value strings A,2,..,10,J,Q,K. -/
def valuesBytes : List (List Nat) :=
  [[65], [50], [51], [52], [53], [54], [55], [56], [57], [49, 48], [74], [81], [75]]

/-- Embedding of initializeDeck: the two nested append loops build the
suit-major, value-minor product of suitsBytes and valuesBytes. -/
def initializeDeck : List Card :=
  suitsBytes.flatMap (fun suit => valuesBytes.map (fun value => ⟨suit, value⟩))

/-- Embedding of CardToString: Go string concatenation of suit and value. -/
def CardToString (card : Card) : List Nat :=
  card.Suit ++ card.Value

/-- Error values returned by StringToCard.  The source produces three
distinct error messages: a generic invalid-card-string error for inputs
shorter than 3 bytes, an invalid-suit error, and an invalid-value error. -/
inductive CardErr where
  | invalidCardString
  | invalidSuit
  | invalidRank
deriving DecidableEq, Repr

deriving instance DecidableEq for Except

/-- First suit of suitsBytes that is a byte prefix of s, mirroring the
matching loop of StringToCard. -/
def findSuit (s : List Nat) : Option (List Nat) :=
  suitsBytes.find? (fun suit => suit.isPrefixOf s)

/-- Embedding of StringToCard.  Go len and slicing act on bytes: the length
guard compares byte length with 3, and the value is the byte suffix after
the matched suit. -/
def StringToCard (s : List Nat) : Except CardErr Card :=
  if s.length < 3 then .error .invalidCardString
  else
    match findSuit s with
    | none => .error .invalidSuit
    | some suit =>
        let value := s.drop suit.length
        if valuesBytes.contains value then .ok ⟨suit, value⟩
        else .error .invalidRank

/-! ## Fisher-Yates shuffle (shuffle.go) -/

/-- Embedding of the local helper max of shuffle.go. -/
def goMax (a b : Nat) : Nat := if a > b then a else b

/-- Byte position used at step i of the shuffle loop:
pos := i % max(1, len(randomness)-8). -/
def posAt (randomness : List Nat) (i : Nat) : Nat :=
  i % goMax 1 (randomness.length - 8)

/-- binary.BigEndian.Uint64 of an 8-byte slice. -/
def beUint64 (bs : List Nat) : Nat :=
  bs.foldl (fun acc b => acc * 256 + b) 0

/-- Randomness extension at the top of shuffleDeck: when fewer than 8 bytes
are available the randomness is replaced by its SHA-256 digest. -/
def extendIfShort (randomness : List Nat) : List Nat :=
  if randomness.length < 8 then sha256 randomness else randomness

/-- Parallel swap assignment shuffled[i], shuffled[j] = shuffled[j], shuffled[i]
on the list model of a Go slice. -/
def swapIdx (l : List Card) (i j : Nat) : List Card :=
  (l.set i (l.getD j defaultCard)).set j (l.getD i defaultCard)

/-- Body of one iteration of the shuffle loop at index i: slice 8 bytes at
pos, read them big-endian, reduce modulo i+1 and swap. -/
def shuffleStep (randomness : List Nat) (l : List Card) (i : Nat) : List Card :=
  let pos := posAt randomness i
  let j := beUint64 ((randomness.drop pos).take 8) % (i + 1)
  swapIdx l i j

/-- The descending loop for i := len-1; i > 0; i-- of shuffleDeck, with the
loop counter as fuel: fuel i processes indices i, i-1, ..., 1. -/
def shuffleLoop (randomness : List Nat) : Nat → List Card → List Card
  | 0, l => l
  | i + 1, l => shuffleLoop randomness i (shuffleStep randomness l (i + 1))

/-- Embedding of shuffleDeck: copy the deck, extend short randomness, run
the Fisher-Yates loop from the last index down to 1. -/
def shuffleDeck (deck : List Card) (randomness : List Nat) : List Card :=
  let shuffled := deck
  let r := extendIfShort randomness
  shuffleLoop r (shuffled.length - 1) shuffled

/-- Two-slice embedding of shuffleDeck that tracks the memory of both Go
slices: the first component is the input slice deck, the second the fresh
slice shuffled.  Every write of the loop body targets the second component
only, exactly as every assignment in the source targets shuffled. -/
def shuffleFrameLoop (randomness : List Nat) :
    Nat → List Card × List Card → List Card × List Card
  | 0, st => st
  | i + 1, st => shuffleFrameLoop randomness i (st.1, shuffleStep randomness st.2 (i + 1))

/-- Embedding of shuffleDeck at the level of the two slices: make+copy
creates the second slice as a copy of the first, then the loop runs. -/
def shuffleDeckFrame (deck : List Card) (randomness : List Nat) :
    List Card × List Card :=
  let r := extendIfShort randomness
  shuffleFrameLoop r (deck.length - 1) (deck, deck)

/-! ## Session randomness extension and the deck facades (shuffle.go) -/

/-- Embedding of the extension block shared by GetShuffledDeck and
GetShuffledDeckByRound: hasher.Write(randomness); hasher.Write(sessionID);
hasher.Sum(randomness).  Go hash.Sum(b) appends the digest of the written
bytes to b. -/
def extendRandomness (randomness gameSessionID : List Nat) : List Nat :=
  randomness ++ sha256 (randomness ++ gameSessionID)

/-- Embedding of GetShuffledDeckByRound, abstracted over the beacon
randomness that GetRandomnessByRound returns for the requested round (the
network client is outside the embedding; for a fixed round the drand beacon
randomness is a fixed byte string). -/
def GetShuffledDeckByRound (randomness gameSessionID : List Nat) : List Card :=
  shuffleDeck initializeDeck (extendRandomness randomness gameSessionID)

/-- Embedding of GetShuffledDeck, abstracted over the latest beacon
randomness and round returned by GetLatestRandomness. -/
def GetShuffledDeck (randomness : List Nat) (round : Nat) (gameSessionID : List Nat) :
    List Card × Nat :=
  (shuffleDeck initializeDeck (extendRandomness randomness gameSessionID), round)

/-! ## DrandManager beacon cache (drand_manager.go)

The manager state holds the latest beacon, the round-indexed cache, the
background-loop flag and whether the client connection has been closed.
Network fetches are abstracted: each operation that fetches takes the
fetched result as an argument. -/

/-- One drand beacon: round number and randomness bytes. -/
structure BeaconRecord where
  round : Nat
  randomness : List Nat
deriving DecidableEq, Repr

/-- State of a DrandManager.  The Go map beaconCache is represented as an
association list sorted by strictly increasing round. -/
structure DMState where
  latestBeacon : Option BeaconRecord
  beaconCache : List BeaconRecord
  isRunning : Bool
  clientClosed : Bool
deriving DecidableEq, Repr

/-- Manager state before any beacon has been observed. -/
def initialState : DMState := ⟨none, [], false, false⟩

/-- Cache capacity constant maxCacheSize of fetchLatestBeacon. -/
def maxCacheSize : Nat := 100

/-- Map update beaconCache[round] = record on the sorted-association-list
representation: replaces an existing entry for the same round, otherwise
inserts keeping rounds strictly increasing. -/
def cacheInsert (cache : List BeaconRecord) (b : BeaconRecord) : List BeaconRecord :=
  match cache with
  | [] => [b]
  | c :: cs =>
      if b.round < c.round then b :: c :: cs
      else if b.round = c.round then b :: cs
      else c :: cacheInsert cs b

/-- Map lookup beaconCache[round] on the association-list representation. -/
def lookupRound (cache : List BeaconRecord) (round : Nat) : Option BeaconRecord :=
  cache.find? (fun b => b.round = round)

/-- Eviction block of fetchLatestBeacon: when the cache holds more than
maxCacheSize records, sort the rounds and delete the smallest
len - maxCacheSize of them.  On the round-sorted representation this drops
the first len - maxCacheSize entries. -/
def cleanupCache (cache : List BeaconRecord) : List BeaconRecord :=
  if cache.length > maxCacheSize then cache.drop (cache.length - maxCacheSize)
  else cache

/-- Update block of fetchLatestBeacon: set the latest pointer, store the
record under its round, then run the eviction block. -/
def insertAndCleanup (s : DMState) (result : BeaconRecord) : DMState :=
  { s with
      latestBeacon := some result,
      beaconCache := cleanupCache (cacheInsert s.beaconCache result) }

/-- Embedding of fetchLatestBeacon applied to a successfully fetched
result: a no-op when a latest beacon of a greater or equal round is already
known, otherwise the latest pointer and the cache are updated and the cache
is cleaned. -/
def fetchLatestBeaconStep (s : DMState) (result : BeaconRecord) : DMState :=
  match s.latestBeacon with
  | some lb => if lb.round ≥ result.round then s else insertAndCleanup s result
  | none => insertAndCleanup s result

/-- Errors of the manager read operations, after the error strings of the
source: no beacon fetched yet, and fetch failure. -/
inductive DrandErr where
  | notYetAvailable
  | sourceUnavailable
deriving DecidableEq, Repr

/-- Embedding of GetLatestRandomness: returns the randomness and round of
the latest beacon, or the not-yet-available error.  The source consults no
other state. -/
def GetLatestRandomness (s : DMState) : Except DrandErr (List Nat × Nat) :=
  match s.latestBeacon with
  | none => .error .notYetAvailable
  | some b => .ok (b.randomness, b.round)

/-- Embedding of GetRandomnessByRound: a cache hit answers from the cache
without touching the state; a miss consults the network (abstracted as the
fetchResult argument: none models a failed fetch) and on success stores the
result under the requested round, without updating latestBeacon and without
any cleanup. -/
def GetRandomnessByRound (s : DMState) (round : Nat) (fetchResult : Option (List Nat)) :
    DMState × Except DrandErr (List Nat) :=
  match lookupRound s.beaconCache round with
  | some b => (s, .ok b.randomness)
  | none =>
      match fetchResult with
      | none => (s, .error .sourceUnavailable)
      | some rnd =>
          ({ s with beaconCache := cacheInsert s.beaconCache ⟨round, rnd⟩ }, .ok rnd)

/-- Embedding of StopBackgroundFetching. -/
def StopBackgroundFetching (s : DMState) : DMState :=
  if s.isRunning then { s with isRunning := false } else s

/-- Embedding of Close: stop the background loop when running, then close
the client connection.  No other field changes; in particular nothing marks
the cached data unreadable. -/
def closeManager (s : DMState) : DMState :=
  let s1 := StopBackgroundFetching s
  { s1 with clientClosed := true }

/-- Cache-mutating operations for traces: a successful background-refresh
fetch, and an on-demand request by round together with the outcome of its
network fetch. -/
inductive DOp where
  | fetchLatest (result : BeaconRecord)
  | getByRound (round : Nat) (fetchResult : Option (List Nat))
deriving DecidableEq, Repr

/-- Whether a trace operation is a background-refresh insertion. -/
def DOp.isFetchLatest : DOp → Bool
  | .fetchLatest _ => true
  | .getByRound _ _ => false

/-- State transition of one trace operation. -/
def applyOp (s : DMState) : DOp → DMState
  | .fetchLatest result => fetchLatestBeaconStep s result
  | .getByRound round fetchResult => (GetRandomnessByRound s round fetchResult).1

/-- Run a trace of operations from a state. -/
def runOps (s : DMState) (ops : List DOp) : DMState :=
  ops.foldl applyOp s

/-- Round of the current latest beacon, 0 when none (beacon rounds are
strictly positive). -/
def latestRoundN (s : DMState) : Nat :=
  match s.latestBeacon with
  | none => 0
  | some b => b.round

/-! ## Concrete example inputs used to exercise the embedding -/

/-- Trace of 101 on-demand requests for the distinct uncached rounds
1..101, each answered by the network. -/
def manyByRoundOps : List DOp :=
  (List.range 101).map (fun k => DOp.getByRound (k + 1) (some []))

/-- A sorted cache holding 101 records for rounds 1..101. -/
def cache101 : List BeaconRecord :=
  (List.range 101).map (fun k => ⟨k + 1, []⟩)

/-- Trace of one background-refresh insertion of round 3 followed by an
on-demand insertion of round 5. -/
def fetchThenByRoundOps : List DOp :=
  [DOp.fetchLatest ⟨3, []⟩, DOp.getByRound 5 (some [7])]

/-- A running manager that has observed the beacon of round 1. -/
def runningState : DMState :=
  ⟨some ⟨1, [9]⟩, [⟨1, [9]⟩], true, false⟩

/-! ## Helper lemmas: SHA-256 output length -/

/-- SHA-256 always produces 32 bytes. -/
theorem sha256_length (msg : List Nat) : (sha256 msg).length = 32 := by
  simp [sha256, wordBytes]

/-! ## Helper lemmas: the shuffle permutes -/

theorem swapIdx_length (l : List Card) (i j : Nat) :
    (swapIdx l i j).length = l.length := by
  simp [swapIdx]

/-- Moving the j-th element to the front while writing x into slot j is a
permutation of putting x on the front. -/
theorem getD_set_cons_perm (xs : List Card) (j : Nat) (x : Card) (hj : j < xs.length) :
    ((xs.getD j defaultCard) :: xs.set j x).Perm (x :: xs) := by
  induction xs generalizing j with
  | nil => simp at hj
  | cons y ys ih =>
      cases j with
      | zero => simpa using List.Perm.swap x y ys
      | succ m =>
          have hm : m < ys.length := by simpa using hj
          exact (List.Perm.swap y (ys.getD m defaultCard) (ys.set m x)).trans
            ((List.Perm.cons y (ih m hm)).trans (List.Perm.swap x y ys))

/-- A parallel swap of two in-bounds positions permutes the list. -/
theorem swapIdx_perm (l : List Card) (i j : Nat) (hi : i < l.length) (hj : j < l.length) :
    (swapIdx l i j).Perm l := by
  induction l generalizing i j with
  | nil => simp at hi
  | cons x xs ih =>
      cases i with
      | zero =>
          cases j with
          | zero => simp [swapIdx]
          | succ m =>
              have hm : m < xs.length := by simpa using hj
              simpa [swapIdx] using getD_set_cons_perm xs m x hm
      | succ n =>
          cases j with
          | zero =>
              have hn : n < xs.length := by simpa using hi
              simpa [swapIdx] using getD_set_cons_perm xs n x hn
          | succ m =>
              have hn : n < xs.length := by simpa using hi
              have hm : m < xs.length := by simpa using hj
              simpa [swapIdx] using List.Perm.cons x (ih n m hn hm)

theorem shuffleStep_length (r : List Nat) (l : List Card) (i : Nat) :
    (shuffleStep r l i).length = l.length := by
  simp [shuffleStep, swapIdx]

theorem shuffleStep_perm (r : List Nat) (l : List Card) (i : Nat) (hi : i < l.length) :
    (shuffleStep r l i).Perm l := by
  have hj : beUint64 ((r.drop (posAt r i)).take 8) % (i + 1) < l.length :=
    lt_of_lt_of_le (Nat.mod_lt _ (Nat.succ_pos i)) (by omega)
  exact swapIdx_perm l i _ hi hj

theorem shuffleLoop_perm (r : List Nat) (i : Nat) (l : List Card) (hi : i < l.length) :
    (shuffleLoop r i l).Perm l := by
  induction i generalizing l with
  | zero => exact List.Perm.refl l
  | succ n ih =>
      have h2 : n < (shuffleStep r l (n + 1)).length := by
        rw [shuffleStep_length]; omega
      exact (ih _ h2).trans (shuffleStep_perm r l (n + 1) hi)

theorem shuffleLoop_length (r : List Nat) (i : Nat) (l : List Card) :
    (shuffleLoop r i l).length = l.length := by
  induction i generalizing l with
  | zero => rfl
  | succ n ih => rw [shuffleLoop, ih, shuffleStep_length]

/-- The shuffled deck is a permutation of the input deck. -/
theorem shuffleDeck_perm (deck : List Card) (randomness : List Nat) :
    (shuffleDeck deck randomness).Perm deck := by
  cases deck with
  | nil => exact List.Perm.refl _
  | cons x xs => exact shuffleLoop_perm _ xs.length (x :: xs) (by simp)

theorem shuffleDeck_length (deck : List Card) (randomness : List Nat) :
    (shuffleDeck deck randomness).length = deck.length :=
  (shuffleDeck_perm deck randomness).length_eq

/-! ## Helper lemmas: short-randomness safety bounds -/

/-- After the extension step the randomness has at least 8 bytes. -/
theorem extendIfShort_length (r : List Nat) : 8 ≤ (extendIfShort r).length := by
  unfold extendIfShort
  split
  · rw [sha256_length]; omega
  · omega

/-- On randomness of at least 8 bytes, every slice start produced by posAt
leaves 8 readable bytes. -/
theorem posAt_add8_le (r : List Nat) (i : Nat) (h8 : 8 ≤ r.length) :
    posAt r i + 8 ≤ r.length := by
  have hpos : posAt r i < goMax 1 (r.length - 8) :=
    Nat.mod_lt _ (by unfold goMax; split <;> omega)
  unfold goMax at hpos
  split at hpos <;> omega

/-! ## Helper lemmas: the frame embedding -/

theorem shuffleFrameLoop_fst (r : List Nat) (i : Nat) :
    ∀ st : List Card × List Card, (shuffleFrameLoop r i st).1 = st.1 := by
  induction i with
  | zero => intro st; rfl
  | succ n ih => intro st; exact ih (st.1, shuffleStep r st.2 (n + 1))

theorem shuffleFrameLoop_snd (r : List Nat) (i : Nat) :
    ∀ (d l : List Card), (shuffleFrameLoop r i (d, l)).2 = shuffleLoop r i l := by
  induction i with
  | zero => intro d l; rfl
  | succ n ih => intro d l; exact ih d (shuffleStep r l (n + 1))

/-! ## Helper lemmas: beacon cache -/

theorem cacheInsert_length (cache : List BeaconRecord) (b : BeaconRecord) :
    (cacheInsert cache b).length ≤ cache.length + 1 := by
  induction cache with
  | nil => simp [cacheInsert]
  | cons c cs ih =>
      unfold cacheInsert
      split
      · simp
      · split
        · simp
        · simpa using Nat.succ_le_succ ih

theorem cleanupCache_length (cache : List BeaconRecord) :
    (cleanupCache cache).length =
      if cache.length > maxCacheSize then maxCacheSize else cache.length := by
  unfold cleanupCache
  split
  · rename_i h
    rw [List.length_drop]
    unfold maxCacheSize at *
    omega
  · rfl

/-- One background-refresh step never leaves more than maxCacheSize records. -/
theorem fetchLatestBeaconStep_length (s : DMState) (result : BeaconRecord)
    (hs : s.beaconCache.length ≤ maxCacheSize) :
    (fetchLatestBeaconStep s result).beaconCache.length ≤ maxCacheSize := by
  have h1 := cacheInsert_length s.beaconCache result
  have h2 : (insertAndCleanup s result).beaconCache.length ≤ maxCacheSize := by
    simp only [insertAndCleanup, cleanupCache_length]
    split <;> omega
  cases h : s.latestBeacon with
  | none => simpa [fetchLatestBeaconStep, h] using h2
  | some lb =>
      by_cases hge : lb.round ≥ result.round
      · simpa [fetchLatestBeaconStep, h, hge] using hs
      · simpa [fetchLatestBeaconStep, h, hge] using h2

/-- Traces consisting only of background-refresh insertions keep the cache
within capacity. -/
theorem runOps_fetchOnly_length (ops : List DOp) (s : DMState)
    (hops : ∀ op ∈ ops, op.isFetchLatest = true)
    (hs : s.beaconCache.length ≤ maxCacheSize) :
    (runOps s ops).beaconCache.length ≤ maxCacheSize := by
  induction ops generalizing s with
  | nil => exact hs
  | cons op rest ih =>
      have hop := hops op (by simp)
      have hrest : ∀ o ∈ rest, o.isFetchLatest = true :=
        fun o ho => hops o (List.mem_cons_of_mem _ ho)
      cases op with
      | getByRound round fr => simp [DOp.isFetchLatest] at hop
      | fetchLatest result =>
          exact ih _ hrest (fetchLatestBeaconStep_length s result hs)

/-- On a round-sorted cache above capacity, the cleanup drops exactly the
records with the smallest rounds: the evicted front and the kept tail
partition the cache and every evicted round is below every kept round. -/
theorem cleanupCache_evicts_smallest (cache : List BeaconRecord)
    (hsorted : cache.Pairwise (fun a b => a.round < b.round))
    (hlen : cache.length > maxCacheSize) :
    cache.take (cache.length - maxCacheSize) ++ cleanupCache cache = cache
    ∧ (cache.take (cache.length - maxCacheSize)).length = cache.length - maxCacheSize
    ∧ ∀ e ∈ cache.take (cache.length - maxCacheSize),
        ∀ k ∈ cleanupCache cache, e.round < k.round := by
  have hc : cleanupCache cache = cache.drop (cache.length - maxCacheSize) := by
    unfold cleanupCache
    simp [hlen]
  refine ⟨by rw [hc]; exact List.take_append_drop _ _, ?_, ?_⟩
  · rw [List.length_take]
    omega
  · rw [hc]
    have hsp : (cache.take (cache.length - maxCacheSize)
        ++ cache.drop (cache.length - maxCacheSize)).Pairwise
          (fun a b => a.round < b.round) := by
      rw [List.take_append_drop]
      exact hsorted
    exact (List.pairwise_append.mp hsp).2.2

/-! ## Helper lemmas: the latest pointer -/

/-- One background-refresh step moves the latest round to the maximum of the
old latest round and the fetched round. -/
theorem latestRoundN_fetchStep (s : DMState) (result : BeaconRecord) :
    latestRoundN (fetchLatestBeaconStep s result) =
      Nat.max (latestRoundN s) result.round := by
  unfold fetchLatestBeaconStep
  cases h : s.latestBeacon with
  | none => simp [latestRoundN, insertAndCleanup, h]
  | some lb =>
      by_cases hge : lb.round ≥ result.round
      · simp [latestRoundN, h, hge, Nat.max_eq_left hge]
      · have hlt : lb.round ≤ result.round := by omega
        simp [latestRoundN, insertAndCleanup, h, hge, Nat.max_eq_right hlt]

/-- Over a trace of background-refresh insertions, the latest round is the
running maximum of the fetched rounds. -/
theorem latestRoundN_runOps_fetch (results : List BeaconRecord) (s : DMState) :
    latestRoundN (runOps s (results.map DOp.fetchLatest)) =
      results.foldl (fun m r => Nat.max m r.round) (latestRoundN s) := by
  induction results generalizing s with
  | nil => rfl
  | cons r rest ih =>
      have h1 : runOps s ((r :: rest).map DOp.fetchLatest)
          = runOps (fetchLatestBeaconStep s r) (rest.map DOp.fetchLatest) := rfl
      rw [h1, ih (fetchLatestBeaconStep s r), latestRoundN_fetchStep]
      rfl

/-- An on-demand request never changes the latest pointer. -/
theorem getByRound_latest_unchanged (s : DMState) (round : Nat)
    (fr : Option (List Nat)) :
    ((GetRandomnessByRound s round fr).1).latestBeacon = s.latestBeacon := by
  unfold GetRandomnessByRound
  cases hl : lookupRound s.beaconCache round with
  | some b => rfl
  | none => cases fr <;> rfl

/-- A background-refresh result whose round is at most the current latest
round changes nothing. -/
theorem fetchLatestBeaconStep_stale (s : DMState) (lb result : BeaconRecord)
    (hlb : s.latestBeacon = some lb) (hle : result.round ≤ lb.round) :
    fetchLatestBeaconStep s result = s := by
  unfold fetchLatestBeaconStep
  rw [hlb]
  simp [hle]

/-! ## Helper lemmas: Close -/

theorem closeManager_cache (s : DMState) :
    (closeManager s).beaconCache = s.beaconCache := by
  unfold closeManager StopBackgroundFetching
  split <;> rfl

theorem closeManager_latest (s : DMState) :
    (closeManager s).latestBeacon = s.latestBeacon := by
  unfold closeManager StopBackgroundFetching
  split <;> rfl

theorem closeManager_isRunning (s : DMState) :
    (closeManager s).isRunning = false := by
  unfold closeManager StopBackgroundFetching
  split <;> simp_all

/-! ## Helper lemmas: card text parsing -/

/-- A matched suit is one of the four 6-byte suit strings, so the input has
at least 6 bytes. -/
theorem findSuit_some_six (s suit : List Nat) (h : findSuit s = some suit) :
    suit.length = 6 ∧ 6 ≤ s.length := by
  have h2 : suitsBytes.find? (fun su => su.isPrefixOf s) = some suit := h
  have hmem : suit ∈ suitsBytes := List.mem_of_find?_eq_some h2
  have hp0 := List.find?_some h2
  have hp : suit.isPrefixOf s = true := hp0
  have hle : suit.length ≤ s.length := (List.isPrefixOf_iff_prefix.mp hp).length_le
  have h6 : suit.length = 6 := by
    simp only [suitsBytes, List.mem_cons, List.not_mem_nil, or_false] at hmem
    rcases hmem with rfl | rfl | rfl | rfl <;> rfl
  exact ⟨h6, by omega⟩

/-! ## Claims -/

/-- C1: for every input deck and every extended-randomness byte sequence,
shuffleDeck returns exactly the multiset of elements of the input deck (no
loss, no duplication); in particular on the 52-card deck the output is a
permutation of the same 52 elements. -/
theorem C1_shuffle_preserves_multiset :
    ∀ (deck : List Card) (randomness : List Nat),
      (shuffleDeck deck randomness : Multiset Card) = (deck : Multiset Card)
      ∧ (shuffleDeck deck randomness).Perm deck
      ∧ (shuffleDeck initializeDeck randomness).length = 52 := by
  intro deck randomness
  refine ⟨Multiset.coe_eq_coe.mpr (shuffleDeck_perm deck randomness),
    shuffleDeck_perm deck randomness, ?_⟩
  rw [shuffleDeck_length]
  rfl

/-- C2: shuffleDeck is deterministic, and so is the deck request pinned to a
round: for the same beacon randomness and session identifier,
GetShuffledDeckByRound returns identical card sequences across invocations
(the embedding derived from the source is a pure function of these inputs,
with no other state feeding the result). -/
theorem C2_deterministic :
    ∀ (deck : List Card) (randomness gameSessionID : List Nat),
      shuffleDeck deck randomness = shuffleDeck deck randomness
      ∧ GetShuffledDeckByRound randomness gameSessionID
          = GetShuffledDeckByRound randomness gameSessionID :=
  fun _ _ _ => ⟨rfl, rfl⟩

/-- C3: the extended randomness is the beacon randomness with the SHA-256
digest of beacon randomness followed by session bytes appended, so it has
exactly, hence at least, digest-length (32) + original-length bytes. -/
theorem C3_extended_randomness :
    ∀ (randomness gameSessionID : List Nat),
      extendRandomness randomness gameSessionID
        = randomness ++ sha256 (randomness ++ gameSessionID)
      ∧ (extendRandomness randomness gameSessionID).length = randomness.length + 32
      ∧ 32 + randomness.length ≤ (extendRandomness randomness gameSessionID).length := by
  intro r sid
  have hlen : (extendRandomness r sid).length = r.length + 32 := by
    simp [extendRandomness, sha256_length]
  exact ⟨rfl, hlen, by omega⟩

set_option maxRecDepth 20000 in
/-- C4: the claim that the cache never exceeds 100 records after any
sequence of insertions fails on the code: 101 on-demand fetches for
distinct uncached rounds insert without any eviction, leaving 101 records.
The background-refresh path does evict (see the amended bound below); the
on-demand path of GetRandomnessByRound stores unconditionally. -/
theorem C4_cache_bound_violated :
    maxCacheSize < (runOps initialState manyByRoundOps).beaconCache.length
    ∧ (runOps initialState manyByRoundOps).beaconCache.length = 101 := by
  constructor
  · decide
  · decide

/-- C4 (amended behaviour actually implemented): traces consisting only of
background-refresh insertions never exceed the capacity, and whenever the
cleanup runs on an over-capacity sorted cache it evicts exactly the records
with the smallest rounds. -/
theorem C4_bound_fetchLatest_only :
    (∀ ops : List DOp, (∀ op ∈ ops, op.isFetchLatest = true) →
      (runOps initialState ops).beaconCache.length ≤ maxCacheSize)
    ∧ (∀ cache : List BeaconRecord,
        cache.Pairwise (fun a b => a.round < b.round) →
        cache.length > maxCacheSize →
        cache.take (cache.length - maxCacheSize) ++ cleanupCache cache = cache
        ∧ (cache.take (cache.length - maxCacheSize)).length
            = cache.length - maxCacheSize
        ∧ ∀ e ∈ cache.take (cache.length - maxCacheSize),
            ∀ k ∈ cleanupCache cache, e.round < k.round) :=
  ⟨fun ops hops => runOps_fetchOnly_length ops initialState hops (by decide),
   cleanupCache_evicts_smallest⟩

/-- C4 witness: both amended statements applied at concrete inputs. -/
theorem C4_bound_fetchLatest_only_witness :
    (runOps initialState
        [DOp.fetchLatest ⟨1, [4]⟩, DOp.fetchLatest ⟨2, [5]⟩]).beaconCache.length
      ≤ maxCacheSize
    ∧ (cache101.take (cache101.length - maxCacheSize) ++ cleanupCache cache101 = cache101
       ∧ (cache101.take (cache101.length - maxCacheSize)).length
           = cache101.length - maxCacheSize
       ∧ ∀ e ∈ cache101.take (cache101.length - maxCacheSize),
           ∀ k ∈ cleanupCache cache101, e.round < k.round) :=
  ⟨C4_bound_fetchLatest_only.1 _ (by decide),
   C4_bound_fetchLatest_only.2 cache101 (by decide) (by decide)⟩

/-- C5: the claim that the latest record always equals the maximum-round
record of the mapping fails on the code: after a background insertion of
round 3, an on-demand insertion of round 5 leaves round 5 in the mapping
while the latest record and GetLatestRandomness still report round 3. -/
theorem C5_latest_not_mapping_max :
    (runOps initialState fetchThenByRoundOps).latestBeacon = some ⟨3, []⟩
    ∧ (⟨5, [7]⟩ : BeaconRecord) ∈ (runOps initialState fetchThenByRoundOps).beaconCache
    ∧ GetLatestRandomness (runOps initialState fetchThenByRoundOps) = .ok ([], 3) := by
  refine ⟨rfl, by decide, rfl⟩

/-- C5 (amended behaviour actually implemented): a background-refresh
result for a round less than or equal to the current latest round changes
nothing; on-demand insertions never touch the latest pointer; and over
traces of background-refresh insertions the latest round is the running
maximum of the inserted rounds, regardless of arrival order. -/
theorem C5_latest_monotone :
    (∀ (s : DMState) (lb result : BeaconRecord),
        s.latestBeacon = some lb → result.round ≤ lb.round →
        fetchLatestBeaconStep s result = s)
    ∧ (∀ (s : DMState) (round : Nat) (fr : Option (List Nat)),
        ((GetRandomnessByRound s round fr).1).latestBeacon = s.latestBeacon)
    ∧ (∀ (results : List BeaconRecord) (s : DMState),
        latestRoundN (runOps s (results.map DOp.fetchLatest)) =
          results.foldl (fun m r => Nat.max m r.round) (latestRoundN s)) :=
  ⟨fetchLatestBeaconStep_stale, getByRound_latest_unchanged, latestRoundN_runOps_fetch⟩

/-- C5 witness: a stale background-refresh result really is dropped. -/
theorem C5_latest_monotone_witness :
    fetchLatestBeaconStep ⟨some ⟨3, []⟩, [⟨3, []⟩], false, false⟩ ⟨2, [5]⟩
      = ⟨some ⟨3, []⟩, [⟨3, []⟩], false, false⟩ :=
  C5_latest_monotone.1 _ ⟨3, []⟩ ⟨2, [5]⟩ rfl (by decide)

/-- C6: for every randomness input, short ones included, the effective
randomness used by shuffleDeck supports every slice access of the loop
(pos + 8 never exceeds its length, so randomness[pos:pos+8] is in bounds at
every step), and the result on the 52-card deck is still a 52-card
permutation. -/
theorem C6_short_randomness_safe :
    ∀ (randomness : List Nat) (i : Nat),
      posAt (extendIfShort randomness) i + 8 ≤ (extendIfShort randomness).length
      ∧ (shuffleDeck initializeDeck randomness).length = 52
      ∧ (shuffleDeck initializeDeck randomness).Perm initializeDeck := by
  intro r i
  refine ⟨posAt_add8_le _ i (extendIfShort_length r), ?_, shuffleDeck_perm _ _⟩
  rw [shuffleDeck_length]
  rfl

/-- C7: the claim that every cache operation fails with a Closed error
after Close fails on the code: no closed flag is consulted by any read, so
after closing a manager that has observed round 1, GetLatestRandomness
still succeeds with the cached data and a cache-hit GetRandomnessByRound
still answers. -/
theorem C7_reads_succeed_after_close :
    GetLatestRandomness (closeManager runningState) = .ok ([9], 1)
    ∧ (GetRandomnessByRound (closeManager runningState) 1 none).2 = .ok [9] := by
  exact ⟨rfl, rfl⟩

/-- C7 (amended behaviour actually implemented): Close stops the background
loop and marks the client closed, but reads are unaffected: both
GetLatestRandomness and the result of GetRandomnessByRound are exactly what
they were before Close; the code defines no Closed error. -/
theorem C7_close_keeps_reads :
    ∀ s : DMState,
      (closeManager s).isRunning = false
      ∧ (closeManager s).clientClosed = true
      ∧ GetLatestRandomness (closeManager s) = GetLatestRandomness s
      ∧ ∀ (round : Nat) (fr : Option (List Nat)),
          (GetRandomnessByRound (closeManager s) round fr).2
            = (GetRandomnessByRound s round fr).2 := by
  intro s
  refine ⟨closeManager_isRunning s, rfl, ?_, ?_⟩
  · unfold GetLatestRandomness
    rw [closeManager_latest]
  · intro round fr
    unfold GetRandomnessByRound
    rw [closeManager_cache]
    cases lookupRound s.beaconCache round <;> cases fr <;> rfl

/-- C8: the claim that parsing fails with the invalid-suit error exactly
when no suit prefix matches fails on the code: the one-byte input "A"
matches no suit prefix, yet StringToCard reports the generic
invalid-card-string error of the length guard, not the invalid-suit
error. -/
theorem C8_short_input_generic_error :
    findSuit [65] = none
    ∧ StringToCard [65] = .error .invalidCardString
    ∧ ¬ StringToCard [65] = .error .invalidSuit := by
  refine ⟨rfl, rfl, by simp [StringToCard]⟩

/-- C8 (amended): inputs shorter than 3 bytes fail with the generic
invalid-card-string error; the invalid-suit error occurs exactly when the
input is at least 3 bytes and no suit prefix matches; the invalid-rank
error occurs exactly when a suit prefix matches and the remaining bytes are
not one of the 13 rank tokens; every failure is reported as an error value,
never defaulted. -/
theorem C8_error_classification :
    ∀ s : List Nat,
      (StringToCard s = .error .invalidCardString ↔ s.length < 3)
      ∧ (StringToCard s = .error .invalidSuit ↔ 3 ≤ s.length ∧ findSuit s = none)
      ∧ (StringToCard s = .error .invalidRank ↔
          ∃ suit, findSuit s = some suit ∧ s.drop suit.length ∉ valuesBytes) := by
  intro s
  by_cases hlen : s.length < 3
  · have hnone : findSuit s = none := by
      cases hfs : findSuit s with
      | none => rfl
      | some suit =>
          have h6 := findSuit_some_six s suit hfs
          omega
    refine ⟨?_, ?_, ?_⟩ <;> simp [StringToCard, hlen, hnone]
  · cases hfs : findSuit s with
    | none =>
        refine ⟨?_, ?_, ?_⟩ <;> simp [StringToCard, hlen, hfs]
        omega
    | some suit =>
        by_cases hv : s.drop suit.length ∈ valuesBytes
        · refine ⟨?_, ?_, ?_⟩ <;> simp [StringToCard, hlen, hfs, hv]
        · refine ⟨?_, ?_, ?_⟩ <;> simp [StringToCard, hlen, hfs, hv]

/-- C9: shuffleDeck does not mutate its input deck: in the two-slice
embedding that tracks the input slice and the freshly allocated copy, after
the whole loop the input slice is unchanged and the copy carries exactly
the shuffleDeck result. -/
theorem C9_input_deck_unchanged :
    ∀ (deck : List Card) (randomness : List Nat),
      (shuffleDeckFrame deck randomness).1 = deck
      ∧ (shuffleDeckFrame deck randomness).2 = shuffleDeck deck randomness := by
  intro deck randomness
  exact ⟨shuffleFrameLoop_fst _ _ _, shuffleFrameLoop_snd _ _ _ _⟩

/-- C10: on every card of the canonical 52-card deck, StringToCard is a
left inverse of CardToString. -/
theorem C10_card_text_roundtrip :
    ∀ card ∈ initializeDeck, StringToCard (CardToString card) = .ok card := by
  decide

/-- C10 witness: the round trip at the ace of spades. -/
theorem C10_card_text_roundtrip_witness :
    StringToCard (CardToString ⟨[233, 187, 145, 230, 161, 131], [65]⟩)
      = .ok ⟨[233, 187, 145, 230, 161, 131], [65]⟩ :=
  C10_card_text_roundtrip _ (by decide)
